import Mathlib

/-!
Verification of the Drowsy repository's Telemetry Reconciliation & Alarm
Engine: a shallow embedding of `useDrowsinessAlarm` (hooks/use-drowsiness-alarm.ts),
the statistics aggregation of `app/(tabs)/stats.tsx`, and the Firebase mirror
hooks of `hooks/use-firebase.ts`, together with theorems settling the spec's
claims about them.
-/

namespace Drowsy

/-- JavaScript numbers as seen by the alarm engine: a finite value (modelled as
a rational) or one of the non-finite values `NaN`, `+Infinity`, `-Infinity`. -/
inductive JSNum where
  | fin (q : ℚ)
  | nan
  | posInf
  | negInf
deriving DecidableEq

/-- JavaScript comparison `x < c` of a number `x` against a finite constant
`c`: `NaN < c` and `+Infinity < c` are `false`, `-Infinity < c` is `true`. -/
def JSNum.ltc : JSNum → ℚ → Bool
  | .fin q, c => decide (q < c)
  | .nan, _ => false
  | .posInf, _ => false
  | .negInf, _ => true

/-- State held by the `useDrowsinessAlarm` hook: the two React state cells
(`showAlarm`, `eyesClosedDuration`) and the two refs
(`eyesClosedCounterRef`, `alarmTriggeredRef`).  The exposed duration is the
integer floor published by `setEyesClosedDuration`; the counter accumulates
fractional seconds. -/
structure AlarmState where
  showAlarm : Bool
  eyesClosedDuration : ℤ
  eyesClosedCounter : ℚ
  alarmTriggered : Bool
deriving DecidableEq

/-- Initial hook state: `useState(false)`, `useState(0)`, refs `0` / `false`. -/
def initAlarmState : AlarmState :=
  { showAlarm := false
    eyesClosedDuration := 0
    eyesClosedCounter := 0
    alarmTriggered := false }

/-- The closed-eye test of `checkDrowsiness`: `isDrowsy && earValue < 0.25`. -/
def eyesClosedCond (isDrowsy : Bool) (earValue : JSNum) : Bool :=
  isDrowsy && earValue.ltc (1/4)

/-- One tick of `checkDrowsiness(isDrowsy, earValue)` from
hooks/use-drowsiness-alarm.ts, parameterised by `thresholdSeconds` and
`pollingInterval` (milliseconds).  On a closed-eye tick the counter ref grows
by `pollingInterval / 1000`; `duration` is its floor; the alarm fires once per
episode when `duration >= thresholdSeconds`.  On an open-eye tick only the
counter ref and the triggered ref are reset. -/
def checkDrowsiness (thresholdSeconds pollingInterval : ℚ)
    (isDrowsy : Bool) (earValue : JSNum) (s : AlarmState) : AlarmState :=
  if eyesClosedCond isDrowsy earValue then
    let counter := s.eyesClosedCounter + pollingInterval / 1000
    let duration : ℤ := ⌊counter⌋
    if thresholdSeconds ≤ (duration : ℚ) ∧ s.alarmTriggered = false then
      { s with
        eyesClosedCounter := counter
        eyesClosedDuration := duration
        showAlarm := true
        alarmTriggered := true }
    else if thresholdSeconds ≤ (duration : ℚ) then
      { s with
        eyesClosedCounter := counter
        eyesClosedDuration := duration }
    else
      { s with eyesClosedCounter := counter }
  else
    { s with
      eyesClosedCounter := 0
      alarmTriggered := false }

/-- Model of `dismissAlarm`: `setShowAlarm(false)` and
`alarmTriggeredRef.current = false`. -/
def dismissAlarm (s : AlarmState) : AlarmState :=
  { s with showAlarm := false, alarmTriggered := false }

/-- Model of `resetAlarm`: counter ref to 0, triggered ref to false, alarm
hidden, published duration to 0. -/
def resetAlarm (s : AlarmState) : AlarmState :=
  { s with
    eyesClosedCounter := 0
    alarmTriggered := false
    showAlarm := false
    eyesClosedDuration := 0 }

/-- State after `n` consecutive closed-eye ticks (`isDrowsy = true`, the given
`earValue`) starting from the initial hook state. -/
def closedRun (thresholdSeconds pollingInterval : ℚ) (earValue : JSNum) :
    ℕ → AlarmState
  | 0 => initAlarmState
  | n + 1 =>
      checkDrowsiness thresholdSeconds pollingInterval true earValue
        (closedRun thresholdSeconds pollingInterval earValue n)

example :
    (closedRun 4 1000 (.fin (1/5)) 3).showAlarm = false := by
  norm_num [closedRun, checkDrowsiness, eyesClosedCond, JSNum.ltc, initAlarmState]

example :
    (closedRun 4 1000 (.fin (1/5)) 4).showAlarm = true := by
  norm_num [closedRun, checkDrowsiness, eyesClosedCond, JSNum.ltc, initAlarmState]

lemma checkDrowsiness_open (T p : ℚ) (isDrowsy : Bool) (ear : JSNum)
    (h : eyesClosedCond isDrowsy ear = false) (s : AlarmState) :
    checkDrowsiness T p isDrowsy ear s =
      { s with eyesClosedCounter := 0, alarmTriggered := false } := by
  simp [checkDrowsiness, h]

lemma checkDrowsiness_closed_low (T p : ℚ) (isDrowsy : Bool) (ear : JSNum)
    (h : eyesClosedCond isDrowsy ear = true) (s : AlarmState)
    (hlow : ((⌊s.eyesClosedCounter + p / 1000⌋ : ℤ) : ℚ) < T) :
    checkDrowsiness T p isDrowsy ear s =
      { s with eyesClosedCounter := s.eyesClosedCounter + p / 1000 } := by
  simp only [checkDrowsiness, h, if_true]
  rw [if_neg, if_neg]
  · exact not_le.mpr hlow
  · exact fun hc => absurd hc.1 (not_le.mpr hlow)

lemma checkDrowsiness_closed_fire (T p : ℚ) (isDrowsy : Bool) (ear : JSNum)
    (h : eyesClosedCond isDrowsy ear = true) (s : AlarmState)
    (hfire : T ≤ ((⌊s.eyesClosedCounter + p / 1000⌋ : ℤ) : ℚ))
    (harm : s.alarmTriggered = false) :
    checkDrowsiness T p isDrowsy ear s =
      { s with
        eyesClosedCounter := s.eyesClosedCounter + p / 1000
        eyesClosedDuration := ⌊s.eyesClosedCounter + p / 1000⌋
        showAlarm := true
        alarmTriggered := true } := by
  simp only [checkDrowsiness, h, if_true]
  rw [if_pos ⟨hfire, harm⟩]

/-- As long as every tick's floored accumulator is still below the threshold,
a run of closed-eye ticks only grows the counter: no alarm, no trigger. -/
lemma closedRun_below (T p : ℚ) (ear : JSNum)
    (hear : eyesClosedCond true ear = true) :
    ∀ j : ℕ, (∀ i : ℕ, i ≤ j → ((⌊(i : ℚ) * (p / 1000)⌋ : ℤ) : ℚ) < T) →
      closedRun T p ear j =
        { initAlarmState with eyesClosedCounter := (j : ℚ) * (p / 1000) }
  | 0, _ => by simp [closedRun, initAlarmState]
  | (j + 1), h => by
      have hj := closedRun_below T p ear hear j fun i hi =>
        h i (Nat.le_succ_of_le hi)
      have hcast : (j : ℚ) * (p / 1000) + p / 1000 = ((j + 1 : ℕ) : ℚ) * (p / 1000) := by
        push_cast
        ring
      rw [closedRun, hj, checkDrowsiness_closed_low T p true ear hear]
      · simp [hcast]
      · simpa [initAlarmState, hcast] using h (j + 1) le_rfl

/-- The first closed-eye tick whose floored accumulator reaches the threshold
fires the alarm: `showAlarm` and the triggered ref become `true` and the
floored accumulator is published as `eyesClosedDuration`. -/
lemma closedRun_fire (T p : ℚ) (ear : JSNum)
    (hear : eyesClosedCond true ear = true) (j : ℕ)
    (hbelow : ∀ i : ℕ, i ≤ j → ((⌊(i : ℚ) * (p / 1000)⌋ : ℤ) : ℚ) < T)
    (hfire : T ≤ ((⌊((j + 1 : ℕ) : ℚ) * (p / 1000)⌋ : ℤ) : ℚ)) :
    closedRun T p ear (j + 1) =
      { showAlarm := true
        eyesClosedDuration := ⌊((j + 1 : ℕ) : ℚ) * (p / 1000)⌋
        eyesClosedCounter := ((j + 1 : ℕ) : ℚ) * (p / 1000)
        alarmTriggered := true } := by
  have hcast : (j : ℚ) * (p / 1000) + p / 1000 = ((j + 1 : ℕ) : ℚ) * (p / 1000) := by
    push_cast
    ring
  rw [closedRun, closedRun_below T p ear hear j hbelow,
    checkDrowsiness_closed_fire T p true ear hear _ (by simpa [initAlarmState, hcast] using hfire) rfl]
  simp [initAlarmState, hcast]

/-- C1 (amended): for an integer threshold `T ≥ 1` and tick period
`Δt = p/1000 > 0`, feeding `⌈T/Δt⌉` consecutive closed-eye ticks triggers the
alarm exactly once — `showAlarm` is `false` after every earlier tick and
`true` (with the triggered ref set and a published duration `≥ T`) after tick
`⌈T/Δt⌉` — and the following open-eye tick resets only the internal counter
ref and the triggered ref, leaving `showAlarm` and the exposed
`eyesClosedDuration` unchanged. -/
theorem closedEpisode_fires_once_then_open_resets_counter
    (T : ℕ) (p : ℚ) (ear : JSNum)
    (hT : 1 ≤ T) (hp : 0 < p) (hear : eyesClosedCond true ear = true) :
    (∀ j : ℕ, j < (⌈(T : ℚ) / (p / 1000)⌉).toNat →
        (closedRun (T : ℚ) p ear j).showAlarm = false) ∧
    (closedRun (T : ℚ) p ear (⌈(T : ℚ) / (p / 1000)⌉).toNat).showAlarm = true ∧
    (closedRun (T : ℚ) p ear (⌈(T : ℚ) / (p / 1000)⌉).toNat).alarmTriggered = true ∧
    (T : ℚ) ≤
      ((closedRun (T : ℚ) p ear (⌈(T : ℚ) / (p / 1000)⌉).toNat).eyesClosedDuration : ℚ) ∧
    checkDrowsiness (T : ℚ) p false ear
        (closedRun (T : ℚ) p ear (⌈(T : ℚ) / (p / 1000)⌉).toNat) =
      { closedRun (T : ℚ) p ear (⌈(T : ℚ) / (p / 1000)⌉).toNat with
          eyesClosedCounter := 0, alarmTriggered := false } := by
  have hΔ : 0 < p / 1000 := by positivity
  have hTQ : (0 : ℚ) < T := by
    exact_mod_cast Nat.lt_of_lt_of_le Nat.zero_lt_one hT
  have hc0 : 0 < ⌈(T : ℚ) / (p / 1000)⌉ := Int.ceil_pos.mpr (div_pos hTQ hΔ)
  have hkc : (((⌈(T : ℚ) / (p / 1000)⌉).toNat : ℤ)) = ⌈(T : ℚ) / (p / 1000)⌉ :=
    Int.toNat_of_nonneg hc0.le
  have hbelow : ∀ i : ℕ, i < (⌈(T : ℚ) / (p / 1000)⌉).toNat →
      ((⌊(i : ℚ) * (p / 1000)⌋ : ℤ) : ℚ) < T := by
    intro i hi
    have h1 : (i : ℤ) < ⌈(T : ℚ) / (p / 1000)⌉ := by omega
    have h2 : (i : ℚ) < (T : ℚ) / (p / 1000) := by exact_mod_cast Int.lt_ceil.mp h1
    have h3 : (i : ℚ) * (p / 1000) < (T : ℚ) := (lt_div_iff₀ hΔ).mp h2
    have h4 : ⌊(i : ℚ) * (p / 1000)⌋ < (T : ℤ) := Int.floor_lt.mpr (by exact_mod_cast h3)
    exact_mod_cast h4
  have hfire : (T : ℚ) ≤
      ((⌊((⌈(T : ℚ) / (p / 1000)⌉).toNat : ℚ) * (p / 1000)⌋ : ℤ) : ℚ) := by
    have h1 : (T : ℚ) / (p / 1000) ≤ ((⌈(T : ℚ) / (p / 1000)⌉ : ℤ) : ℚ) := Int.le_ceil _
    have h1' : (T : ℚ) / (p / 1000) ≤ (((⌈(T : ℚ) / (p / 1000)⌉).toNat : ℕ) : ℚ) := by
      rw [show ((((⌈(T : ℚ) / (p / 1000)⌉).toNat : ℕ)) : ℚ) =
          ((⌈(T : ℚ) / (p / 1000)⌉ : ℤ) : ℚ) by exact_mod_cast congrArg Int.cast hkc]
      exact h1
    have h2 : (T : ℚ) ≤ ((⌈(T : ℚ) / (p / 1000)⌉).toNat : ℚ) * (p / 1000) :=
      (div_le_iff₀ hΔ).mp h1'
    have h3 : (T : ℤ) ≤ ⌊((⌈(T : ℚ) / (p / 1000)⌉).toNat : ℚ) * (p / 1000)⌋ :=
      Int.le_floor.mpr (by exact_mod_cast h2)
    exact_mod_cast h3
  have hk1 : 1 ≤ (⌈(T : ℚ) / (p / 1000)⌉).toNat := by omega
  obtain ⟨k', hk'⟩ : ∃ k', (⌈(T : ℚ) / (p / 1000)⌉).toNat = k' + 1 :=
    ⟨(⌈(T : ℚ) / (p / 1000)⌉).toNat - 1, by omega⟩
  have hbelow' : ∀ i : ℕ, i ≤ k' → ((⌊(i : ℚ) * (p / 1000)⌋ : ℤ) : ℚ) < T :=
    fun i hi => hbelow i (by omega)
  have hrun := closedRun_fire (T : ℚ) p ear hear k' hbelow' (by rw [← hk']; exact hfire)
  refine ⟨?_, ?_, ?_, ?_, ?_⟩
  · intro j hj
    rw [closedRun_below (T : ℚ) p ear hear j fun i hi =>
      hbelow i (Nat.lt_of_le_of_lt hi hj)]
    rfl
  · rw [hk', hrun]
  · rw [hk', hrun]
  · rw [hk']
    simp only [hrun]
    rw [← hk']
    exact hfire
  · rw [hk', hrun, checkDrowsiness_open _ _ _ _ (by simp [eyesClosedCond]) _]

/-- C1 counterexample to the claim as stated.  First: in Scenario A
(threshold 4, Δt = 1 s, ticks with `isDrowsy = true`, `ear = 0.20`), the
open-eye tick 5 does **not** reset the exposed `eyesClosedDuration` to 0 — it
stays 4, because the open branch resets only the counter ref and the
triggered ref.  Second: for fractional threshold `T = 1/2` with
`Δt = 2/5` s, `⌈T/Δt⌉ = 2` closed ticks do not trigger the alarm at all
(the floored accumulator `⌊4/5⌋ = 0` never reaches `1/2`).  Third: for
`T = 0`, `⌈T/Δt⌉ = 0` closed ticks followed by an open tick never show the
alarm. -/
theorem closedEpisode_claim_counterexample :
    (checkDrowsiness 4 1000 false (.fin (1/5))
        (closedRun 4 1000 (.fin (1/5)) 4)).eyesClosedDuration = 4 ∧
    (checkDrowsiness 4 1000 false (.fin (1/5))
        (closedRun 4 1000 (.fin (1/5)) 4)).eyesClosedDuration ≠ 0 ∧
    (⌈(1/2 : ℚ) / (2/5)⌉).toNat = 2 ∧
    (closedRun (1/2) 400 (.fin (1/5)) 2).showAlarm = false ∧
    (⌈(0 : ℚ) / 1⌉).toNat = 0 ∧
    (checkDrowsiness 0 1000 false (.fin (1/5))
        (closedRun 0 1000 (.fin (1/5)) 0)).showAlarm = false := by
  have hceil : ⌈(1/2 : ℚ) / (2/5)⌉ = 2 := by
    rw [show (1/2 : ℚ) / (2/5) = 5/4 by norm_num, Int.ceil_eq_iff]
    norm_num
  have hceil0 : ⌈(0 : ℚ) / 1⌉ = 0 := by norm_num
  refine ⟨?_, ?_, by rw [hceil]; rfl, ?_, by rw [hceil0]; rfl, ?_⟩ <;>
    norm_num [closedRun, checkDrowsiness, eyesClosedCond, JSNum.ltc, initAlarmState]

/-- C1 witness: Scenario A with threshold 4 and Δt = 1 s (pollingInterval
1000 ms): the alarm is not shown after tick 3, fires after tick 4 with
published duration at least 4, and the open-eye tick 5 clears the counter
ref. -/
theorem closedEpisode_fires_once_witness :
    (closedRun ((4 : ℕ) : ℚ) 1000 (.fin (1/5)) 3).showAlarm = false ∧
    (closedRun ((4 : ℕ) : ℚ) 1000 (.fin (1/5))
      (⌈((4 : ℕ) : ℚ) / (1000 / 1000)⌉).toNat).showAlarm = true ∧
    ((4 : ℕ) : ℚ) ≤
      ((closedRun ((4 : ℕ) : ℚ) 1000 (.fin (1/5))
        (⌈((4 : ℕ) : ℚ) / (1000 / 1000)⌉).toNat).eyesClosedDuration : ℚ) ∧
    (checkDrowsiness ((4 : ℕ) : ℚ) 1000 false (.fin (1/5))
        (closedRun ((4 : ℕ) : ℚ) 1000 (.fin (1/5))
          (⌈((4 : ℕ) : ℚ) / (1000 / 1000)⌉).toNat)).eyesClosedCounter = 0 := by
  obtain ⟨h1, h2, h3, h4, h5⟩ :=
    closedEpisode_fires_once_then_open_resets_counter 4 1000 (.fin (1/5))
      (by norm_num) (by norm_num) (by norm_num [eyesClosedCond, JSNum.ltc])
  refine ⟨?_, h2, h4, ?_⟩
  · refine h1 3 ?_
    norm_num
  · rw [h5]

/-- C2 counterexample: with threshold 4 and Δt = 1 s, after 4 closed-eye
ticks the alarm shows; `dismissAlarm` hides it but ALSO clears the triggered
ref, so the very next closed-eye tick — with no open-eye tick in between —
fires the alarm again (`showAlarm` becomes `true` again). -/
theorem dismiss_refire_counterexample :
    (closedRun 4 1000 (.fin (1/5)) 4).showAlarm = true ∧
    (dismissAlarm (closedRun 4 1000 (.fin (1/5)) 4)).showAlarm = false ∧
    (dismissAlarm (closedRun 4 1000 (.fin (1/5)) 4)).alarmTriggered = false ∧
    (checkDrowsiness 4 1000 true (.fin (1/5))
        (dismissAlarm (closedRun 4 1000 (.fin (1/5)) 4))).showAlarm = true := by
  refine ⟨?_, ?_, ?_, ?_⟩ <;>
    norm_num [closedRun, checkDrowsiness, dismissAlarm, eyesClosedCond, JSNum.ltc,
      initAlarmState]

/-- C2 (amended): `dismissAlarm` sets `showAlarm` to `false` and — contrary
to the claim — also resets the triggered ref to `false`, leaving the counter
ref and the published duration untouched; consequently, if a closed-eye tick
follows while the floored accumulator is still at or above the threshold, the
alarm immediately re-fires without any intervening open-eye tick. -/
theorem dismiss_clears_triggered_and_refires (T p : ℚ)
    (isDrowsy : Bool) (ear : JSNum) (s : AlarmState) :
    (dismissAlarm s).showAlarm = false ∧
    (dismissAlarm s).alarmTriggered = false ∧
    (dismissAlarm s).eyesClosedCounter = s.eyesClosedCounter ∧
    (dismissAlarm s).eyesClosedDuration = s.eyesClosedDuration ∧
    (eyesClosedCond isDrowsy ear = true →
      T ≤ ((⌊s.eyesClosedCounter + p / 1000⌋ : ℤ) : ℚ) →
      (checkDrowsiness T p isDrowsy ear (dismissAlarm s)).showAlarm = true) := by
  refine ⟨rfl, rfl, rfl, rfl, fun hear hT => ?_⟩
  rw [checkDrowsiness_closed_fire T p isDrowsy ear hear (dismissAlarm s) hT rfl]

/-- C2 witness: threshold 4, Δt = 1 s, after 4 closed ticks and a dismiss,
the floored accumulator of the next closed tick is 5 ≥ 4, and that tick
re-fires the alarm. -/
theorem dismiss_clears_triggered_and_refires_witness :
    eyesClosedCond true (.fin (1/5)) = true ∧
    (4 : ℚ) ≤
      ((⌊(closedRun 4 1000 (.fin (1/5)) 4).eyesClosedCounter + 1000 / 1000⌋ : ℤ) : ℚ) ∧
    (checkDrowsiness 4 1000 true (.fin (1/5))
        (dismissAlarm (closedRun 4 1000 (.fin (1/5)) 4))).showAlarm = true := by
  have h1 : eyesClosedCond true (.fin (1/5)) = true := by
    norm_num [eyesClosedCond, JSNum.ltc]
  have h2 : (4 : ℚ) ≤
      ((⌊(closedRun 4 1000 (.fin (1/5)) 4).eyesClosedCounter + 1000 / 1000⌋ : ℤ) : ℚ) := by
    norm_num [closedRun, checkDrowsiness, eyesClosedCond, JSNum.ltc, initAlarmState]
  exact ⟨h1, h2,
    (dismiss_clears_triggered_and_refires 4 1000 true (.fin (1/5))
      (closedRun 4 1000 (.fin (1/5)) 4)).2.2.2.2 h1 h2⟩

/-- C3 counterexample: a negative `earValue` satisfies the JavaScript test
`earValue < 0.25`, so with `isDrowsy = true` the tick takes the CLOSED branch,
not the open one: from the initial state with threshold 1 and Δt = 1 s, a
single tick with `ear = -1` grows the accumulator to 1 (not 0) and fires the
alarm. -/
theorem negative_ear_counterexample :
    (checkDrowsiness 1 1000 true (.fin (-1)) initAlarmState).eyesClosedCounter = 1 ∧
    (checkDrowsiness 1 1000 true (.fin (-1)) initAlarmState).eyesClosedCounter ≠ 0 ∧
    (checkDrowsiness 1 1000 true (.fin (-1)) initAlarmState).showAlarm = true := by
  refine ⟨?_, ?_, ?_⟩ <;>
    norm_num [checkDrowsiness, eyesClosedCond, JSNum.ltc, initAlarmState]

/-- C3 (amended): a non-finite `earValue` of `NaN` or `+Infinity` fails the
test `earValue < 0.25`, so the tick takes the eyes-open branch — the
accumulator is reset to 0, the triggered flag cleared, `showAlarm` and the
published duration untouched, and no fault memory persists — regardless of
`isDrowsy`; but a NEGATIVE `earValue` (any finite `q < 0`, or `-Infinity`)
satisfies the test and is treated as closed, incrementing the accumulator
whenever `isDrowsy` is `true`. -/
theorem nonfinite_ear_open_but_negative_ear_closed (T p : ℚ)
    (isDrowsy : Bool) (q : ℚ) (s : AlarmState) :
    checkDrowsiness T p isDrowsy .nan s =
      { s with eyesClosedCounter := 0, alarmTriggered := false } ∧
    checkDrowsiness T p isDrowsy .posInf s =
      { s with eyesClosedCounter := 0, alarmTriggered := false } ∧
    (q < 0 →
      (checkDrowsiness T p true (.fin q) s).eyesClosedCounter =
        s.eyesClosedCounter + p / 1000) ∧
    (checkDrowsiness T p true .negInf s).eyesClosedCounter =
      s.eyesClosedCounter + p / 1000 := by
  have hclosed : ∀ ear : JSNum, eyesClosedCond true ear = true →
      (checkDrowsiness T p true ear s).eyesClosedCounter =
        s.eyesClosedCounter + p / 1000 := by
    intro ear hear
    simp only [checkDrowsiness, hear, if_true]
    split_ifs <;> rfl
  refine ⟨?_, ?_, fun hq => ?_, ?_⟩
  · exact checkDrowsiness_open T p isDrowsy .nan (by simp [eyesClosedCond, JSNum.ltc]) s
  · exact checkDrowsiness_open T p isDrowsy .posInf (by simp [eyesClosedCond, JSNum.ltc]) s
  · exact hclosed (.fin q) (by simp [eyesClosedCond, JSNum.ltc]; linarith)
  · exact hclosed .negInf (by simp [eyesClosedCond, JSNum.ltc])

/-- C3 witness: with threshold 4, Δt = 1 s and `ear = -1 < 0`, one tick from
the initial state grows the accumulator by 1; with `ear = NaN` the open
branch is taken. -/
theorem nonfinite_ear_open_but_negative_ear_closed_witness :
    checkDrowsiness 4 1000 true .nan initAlarmState =
      { initAlarmState with eyesClosedCounter := 0, alarmTriggered := false } ∧
    ((-1 : ℚ) < 0 ∧
      (checkDrowsiness 4 1000 true (.fin (-1)) initAlarmState).eyesClosedCounter =
        initAlarmState.eyesClosedCounter + 1000 / 1000) := by
  obtain ⟨h1, _, h3, _⟩ :=
    nonfinite_ear_open_but_negative_ear_closed 4 1000 true (-1) initAlarmState
  exact ⟨h1, by norm_num, h3 (by norm_num)⟩

/-- C10 confirmed: the published `eyesClosedDuration` is written only on
closed-eye ticks whose floored accumulator has reached the threshold.  Every
open-eye tick and every below-threshold closed-eye tick leaves it unchanged,
and `resetAlarm` sets it to 0. -/
theorem duration_frame_below_threshold (T p : ℚ)
    (isDrowsy : Bool) (ear : JSNum) (s : AlarmState) :
    (eyesClosedCond isDrowsy ear = false →
      (checkDrowsiness T p isDrowsy ear s).eyesClosedDuration = s.eyesClosedDuration) ∧
    (eyesClosedCond isDrowsy ear = true →
      ((⌊s.eyesClosedCounter + p / 1000⌋ : ℤ) : ℚ) < T →
      (checkDrowsiness T p isDrowsy ear s).eyesClosedDuration = s.eyesClosedDuration) ∧
    (resetAlarm s).eyesClosedDuration = 0 := by
  refine ⟨fun hopen => ?_, fun hear hlow => ?_, rfl⟩
  · rw [checkDrowsiness_open T p isDrowsy ear hopen s]
  · rw [checkDrowsiness_closed_low T p isDrowsy ear hear s hlow]

/-- C10 witness: after the Scenario A episode (threshold 4, Δt = 1 s, four
closed ticks) the published duration is 4; the open-eye tick 5 leaves it at
4. -/
theorem duration_frame_below_threshold_witness :
    eyesClosedCond false (.fin (1/5)) = false ∧
    (checkDrowsiness 4 1000 false (.fin (1/5))
        (closedRun 4 1000 (.fin (1/5)) 4)).eyesClosedDuration =
      (closedRun 4 1000 (.fin (1/5)) 4).eyesClosedDuration := by
  have h : eyesClosedCond false (.fin (1/5)) = false := by
    norm_num [eyesClosedCond]
  exact ⟨h,
    (duration_frame_below_threshold 4 1000 false (.fin (1/5))
      (closedRun 4 1000 (.fin (1/5)) 4)).1 h⟩

/-! ## Aggregation engine (app/(tabs)/stats.tsx) -/

/-- Local-time view of a parsed record timestamp: `dateKey` is the string
produced by `formatDateKey(new Date(t))` (the local `YYYY-MM-DD` key), `hour`
is `new Date(t).getHours()` (always 0–23 for a valid date), and `ms` is
`new Date(t).getTime()` (epoch milliseconds), the three observations the
aggregation code makes of a timestamp. -/
structure Timestamp where
  dateKey : String
  hour : Fin 24
  ms : ℤ
deriving DecidableEq

/-- The fields of an `AlertData` record read by the aggregation engine
(`type` is a runtime string; the code compares it with `"drowsiness"` and
`"yawning"` in an if/else-if chain).  `timestamp = none` models a missing or
empty (falsy) timestamp string, which `computeDayStats` skips. -/
structure AlertData where
  type : String
  timestamp : Option Timestamp
deriving DecidableEq

/-- One slot of the 24-hour breakdown built by `computeDayStats`. -/
structure HourBucket where
  hour : ℕ
  drowsy : ℕ
  yawn : ℕ
  total : ℕ
deriving DecidableEq

/-- Result shape of `computeDayStats`. -/
structure DayStats where
  total : ℕ
  drowsy : ℕ
  yawn : ℕ
  hourly : List HourBucket
deriving DecidableEq

/-- In-place update of the element at index `n` (the JS `hours[h].total++`
pattern); indices out of range leave the list unchanged. -/
def modifyIdx {α : Type} (f : α → α) : ℕ → List α → List α
  | _, [] => []
  | 0, a :: l => f a :: l
  | n + 1, a :: l => a :: modifyIdx f n l

/-- The 24 empty hour buckets
(`Array.from({length: 24}, (_, i) => ({hour: i, drowsy: 0, yawn: 0, total: 0}))`). -/
def initHours : List HourBucket :=
  (List.range 24).map fun i => { hour := i, drowsy := 0, yawn := 0, total := 0 }

/-- Body of the `Object.values(alerts).forEach` loop of `computeDayStats`:
skip records with a falsy timestamp or a different local date key; otherwise
count the record in the day total and its hour slot, and in the matching
kind counters when `type` is `"drowsiness"` or `"yawning"`. -/
def dayStatsStep (dayKey : String) (s : DayStats) (a : AlertData) : DayStats :=
  match a.timestamp with
  | none => s
  | some ts =>
    if ts.dateKey ≠ dayKey then s
    else
      let h := ts.hour.val
      let s1 : DayStats :=
        { s with
          total := s.total + 1
          hourly := modifyIdx (fun b => { b with total := b.total + 1 }) h s.hourly }
      if a.type = "drowsiness" then
        { s1 with
          drowsy := s1.drowsy + 1
          hourly := modifyIdx (fun b => { b with drowsy := b.drowsy + 1 }) h s1.hourly }
      else if a.type = "yawning" then
        { s1 with
          yawn := s1.yawn + 1
          hourly := modifyIdx (fun b => { b with yawn := b.yawn + 1 }) h s1.hourly }
      else s1

/-- `computeDayStats(alerts, dayKey)`: fold the step over the record mapping
in insertion order (`Object.values`). -/
def computeDayStats (alerts : List (String × AlertData)) (dayKey : String) :
    DayStats :=
  alerts.foldl (fun s kv => dayStatsStep dayKey s kv.2)
    { total := 0, drowsy := 0, yawn := 0, hourly := initHours }

lemma length_modifyIdx {α : Type} (f : α → α) :
    ∀ (n : ℕ) (l : List α), (modifyIdx f n l).length = l.length
  | n, [] => by cases n <;> rfl
  | 0, _ :: _ => rfl
  | n + 1, _ :: l => congrArg Nat.succ (length_modifyIdx f n l)

lemma getElem?_modifyIdx {α : Type} (f : α → α) :
    ∀ (n : ℕ) (l : List α) (i : ℕ),
      (modifyIdx f n l)[i]? = if i = n then l[i]?.map f else l[i]?
  | n, [], i => by cases n <;> simp [modifyIdx]
  | 0, a :: l, 0 => by simp [modifyIdx]
  | 0, a :: l, i + 1 => by simp [modifyIdx]
  | n + 1, a :: l, 0 => by simp [modifyIdx]
  | n + 1, a :: l, i + 1 => by
      simp only [modifyIdx, List.getElem?_cons_succ, getElem?_modifyIdx f n l i]
      by_cases h : i = n <;> simp [h]

/-- Numeric observation of the bucket at index `i` (0 when out of range). -/
def atIdx {α : Type} (g : α → ℕ) (l : List α) (i : ℕ) : ℕ :=
  (l[i]?.map g).getD 0

lemma atIdx_modifyIdx {α : Type} (g : α → ℕ) (f : α → α) (c : ℕ)
    (hgf : ∀ a, g (f a) = g a + c) (l : List α) (n i : ℕ) :
    atIdx g (modifyIdx f n l) i =
      atIdx g l i + if i = n ∧ i < l.length then c else 0 := by
  unfold atIdx
  rw [getElem?_modifyIdx]
  by_cases h : i = n
  · subst h
    by_cases hlen : i < l.length
    · have hb := List.getElem?_eq_getElem hlen
      simp [hb, hgf, hlen]
    · rw [List.getElem?_eq_none (le_of_not_lt hlen)]
      simp [hlen]
  · simp [h]

lemma sum_map_modifyIdx {α : Type} (g : α → ℕ) (f : α → α) (c : ℕ)
    (hgf : ∀ a, g (f a) = g a + c) :
    ∀ (n : ℕ) (l : List α), n < l.length →
      ((modifyIdx f n l).map g).sum = (l.map g).sum + c
  | n, [], h => absurd h (by simp)
  | 0, a :: l, _ => by simp [modifyIdx, hgf]; omega
  | n + 1, a :: l, h => by
      have := sum_map_modifyIdx g f c hgf n l (by simpa using h)
      simp only [modifyIdx, List.map_cons, List.sum_cons, this]
      omega

lemma foldl_preserves {α β : Type} {P : β → Prop} {f : β → α → β}
    (hf : ∀ b a, P b → P (f b a)) :
    ∀ (l : List α) (b : β), P b → P (l.foldl f b)
  | [], _, h => h
  | a :: l, b, h => foldl_preserves hf l (f b a) (hf b a h)

/-- The C4 invariant, preserved by one step of the `computeDayStats` loop. -/
def DayStatsInv (s : DayStats) : Prop :=
  s.drowsy + s.yawn ≤ s.total ∧
  (s.hourly.map HourBucket.total).sum = s.total ∧
  s.hourly.length = 24

lemma dayStatsStep_preserves (dayKey : String) (s : DayStats) (a : AlertData)
    (h : DayStatsInv s) : DayStatsInv (dayStatsStep dayKey s a) := by
  obtain ⟨h1, h2, h3⟩ := h
  unfold dayStatsStep
  cases a.timestamp with
  | none => exact ⟨h1, h2, h3⟩
  | some ts =>
    dsimp only
    by_cases hdk : ts.dateKey ≠ dayKey
    · rw [if_pos hdk]
      exact ⟨h1, h2, h3⟩
    · rw [if_neg hdk]
      have hh : ts.hour.val < s.hourly.length := by
        rw [h3]
        exact ts.hour.isLt
      have hh1 : ts.hour.val <
          (modifyIdx (fun b => { b with total := b.total + 1 }) ts.hour.val
            s.hourly).length := by
        rw [length_modifyIdx]
        exact hh
      have hsum1 : ((modifyIdx (fun b => { b with total := b.total + 1 })
          ts.hour.val s.hourly).map HourBucket.total).sum = s.total + 1 := by
        rw [sum_map_modifyIdx HourBucket.total _ 1 (fun b => rfl) _ _ hh, h2]
      have hlen1 : (modifyIdx (fun b => { b with total := b.total + 1 })
          ts.hour.val s.hourly).length = 24 := by
        rw [length_modifyIdx]
        exact h3
      by_cases ht : a.type = "drowsiness"
      · rw [if_pos ht]
        refine ⟨by dsimp; omega, ?_, ?_⟩
        · dsimp
          rw [sum_map_modifyIdx HourBucket.total
            (fun b => { b with drowsy := b.drowsy + 1 }) 0 (fun b => rfl) _ _ hh1]
          omega
        · dsimp
          rw [length_modifyIdx]
          exact hlen1
      · rw [if_neg ht]
        by_cases hy : a.type = "yawning"
        · rw [if_pos hy]
          refine ⟨by dsimp; omega, ?_, ?_⟩
          · dsimp
            rw [sum_map_modifyIdx HourBucket.total
              (fun b => { b with yawn := b.yawn + 1 }) 0 (fun b => rfl) _ _ hh1]
            omega
          · dsimp
            rw [length_modifyIdx]
            exact hlen1
        · rw [if_neg hy]
          exact ⟨by dsimp; omega, by dsimp; rw [hsum1], hlen1⟩

/-- C4 confirmed: for every alert mapping and day key, the day counters
satisfy `drowsy + yawn ≤ total`, and the 24 hourly bucket totals sum to
`total`. -/
theorem dayStats_drowsy_yawn_le_total_and_hourly_sum
    (alerts : List (String × AlertData)) (dayKey : String) :
    (computeDayStats alerts dayKey).drowsy + (computeDayStats alerts dayKey).yawn ≤
        (computeDayStats alerts dayKey).total ∧
    ((computeDayStats alerts dayKey).hourly.map HourBucket.total).sum =
        (computeDayStats alerts dayKey).total ∧
    (computeDayStats alerts dayKey).hourly.length = 24 := by
  have hinit : DayStatsInv { total := 0, drowsy := 0, yawn := 0, hourly := initHours } := by
    refine ⟨le_refl 0, ?_, by simp [initHours]⟩
    simp [initHours, List.map_map]
    rfl
  exact foldl_preserves (fun b kv hb => dayStatsStep_preserves dayKey b kv.2 hb)
    alerts _ hinit

/-- The day safe rate derived in the stats screen:
`dayStats.total > 0 ? ((total - drowsy - yawn) / total * 100) : 100`. -/
def daySafeRate (s : DayStats) : ℚ :=
  if 0 < s.total then ((s.total : ℚ) - s.drowsy - s.yawn) / s.total * 100 else 100

/-- C5 confirmed: the safe rate equals `(total − drowsy − yawn)/total × 100`
whenever the day has records, is defined as 100 when `total = 0`, and an
empty mapping yields `total = 0` and `safeRate = 100`. -/
theorem daySafeRate_formula_and_empty_day
    (alerts : List (String × AlertData)) (dayKey : String) :
    (0 < (computeDayStats alerts dayKey).total →
      daySafeRate (computeDayStats alerts dayKey) =
        (((computeDayStats alerts dayKey).total : ℚ) -
            (computeDayStats alerts dayKey).drowsy -
            (computeDayStats alerts dayKey).yawn) /
          (computeDayStats alerts dayKey).total * 100) ∧
    ((computeDayStats alerts dayKey).total = 0 →
      daySafeRate (computeDayStats alerts dayKey) = 100) ∧
    (computeDayStats [] dayKey).total = 0 ∧
    daySafeRate (computeDayStats [] dayKey) = 100 := by
  refine ⟨fun hpos => ?_, fun hzero => ?_, rfl, rfl⟩
  · rw [daySafeRate, if_pos hpos]
  · rw [daySafeRate, if_neg (by omega)]

/-- C5 witness: the empty mapping on a concrete day key has `total = 0` and
safe rate 100. -/
theorem daySafeRate_formula_and_empty_day_witness :
    (computeDayStats [] "2024-05-01").total = 0 ∧
    daySafeRate (computeDayStats [] "2024-05-01") = 100 := by
  obtain ⟨-, h2, h3, -⟩ := daySafeRate_formula_and_empty_day [] "2024-05-01"
  exact ⟨h3, h2 h3⟩

/-! ## Emotion aggregation (`computeEmotionDayStats`) -/

/-- The fields of an `EmotionData` record read by the aggregation engine.
`emotion = ""` models a falsy emotion string, skipped by the loop guard. -/
structure EmotionData where
  emotion : String
  timestamp : Option Timestamp
deriving DecidableEq

/-- One slot of the 24-hour emotion breakdown: a per-emotion count object
(modelled as an association list in key-insertion order, matching JS object
key order) and a total. -/
structure EmotionHourBucket where
  hour : ℕ
  counts : List (String × ℕ)
  total : ℕ
deriving DecidableEq

/-- The loop accumulator of `computeEmotionDayStats` (everything except the
`dominant` field, which is computed after the loop). -/
structure EmotionAcc where
  total : ℕ
  counts : List (String × ℕ)
  hourly : List EmotionHourBucket
deriving DecidableEq

/-- Result shape of `computeEmotionDayStats`. -/
structure EmotionDayStats where
  total : ℕ
  counts : List (String × ℕ)
  hourly : List EmotionHourBucket
  dominant : String
deriving DecidableEq

/-- JS object read `counts[em] || 0` on the association-list model. -/
def lookupCount : List (String × ℕ) → String → ℕ
  | [], _ => 0
  | p :: l, k => if p.1 = k then p.2 else lookupCount l k

/-- JS object write `counts[em] = (counts[em] || 0) + 1`: an existing key is
updated in place, a new key is appended at the end (JS string-key insertion
order). -/
def bump : List (String × ℕ) → String → List (String × ℕ)
  | [], k => [(k, 1)]
  | p :: l, k => if p.1 = k then (p.1, p.2 + 1) :: l else p :: bump l k

lemma lookupCount_bump :
    ∀ (l : List (String × ℕ)) (k q : String),
      lookupCount (bump l k) q = lookupCount l q + if q = k then 1 else 0
  | [], k, q => by
      simp only [bump, lookupCount, Nat.zero_add]
      by_cases h : q = k
      · rw [if_pos h.symm, if_pos h]
      · rw [if_neg (fun hh => h hh.symm), if_neg h]
  | p :: l, k, q => by
      simp only [bump]
      by_cases hpk : p.1 = k
      · rw [if_pos hpk]
        simp only [lookupCount]
        by_cases hpq : p.1 = q
        · rw [if_pos hpq, if_pos hpq, if_pos (hpq.symm.trans hpk)]
        · rw [if_neg hpq, if_neg hpq, if_neg (fun h => hpq (hpk.trans h.symm))]
          omega
      · rw [if_neg hpk]
        simp only [lookupCount]
        by_cases hpq : p.1 = q
        · rw [if_pos hpq, if_pos hpq, if_neg (fun h => hpk (hpq.trans h))]
          omega
        · rw [if_neg hpq, if_neg hpq, lookupCount_bump l k q]

/-- `emotion.toLowerCase()`: character-wise lower-casing, written over the
character list so that it evaluates by kernel reduction. -/
def strToLower (s : String) : String := String.mk (s.data.map Char.toLower)

/-- The 24 empty emotion hour buckets. -/
def initEmotionHours : List EmotionHourBucket :=
  (List.range 24).map fun i => { hour := i, counts := [], total := 0 }

/-- Body of the `Object.values(emotions).forEach` loop of
`computeEmotionDayStats`: skip records with a falsy timestamp or emotion or
a different local date key; otherwise lower-case the emotion and count it in
the day total, the day count object, and the hour slot. -/
def emotionDayStep (dayKey : String) (s : EmotionAcc) (e : EmotionData) :
    EmotionAcc :=
  match e.timestamp with
  | none => s
  | some ts =>
    if e.emotion = "" then s
    else if ts.dateKey ≠ dayKey then s
    else
      let em := strToLower e.emotion
      { total := s.total + 1
        counts := bump s.counts em
        hourly :=
          modifyIdx
            (fun b => { b with total := b.total + 1, counts := bump b.counts em })
            ts.hour.val s.hourly }

/-- The fold underlying `computeEmotionDayStats`. -/
def emotionAcc (emotions : List (String × EmotionData)) (dayKey : String) :
    EmotionAcc :=
  emotions.foldl (fun s kv => emotionDayStep dayKey s kv.2)
    { total := 0, counts := [], hourly := initEmotionHours }

/-- The post-loop dominant-emotion scan
(`let dominant = 'neutral'; let maxCount = 0; entries.forEach(([em, c]) => { if (c > maxCount) { maxCount = c; dominant = em; } })`). -/
def domFold : String × ℕ → List (String × ℕ) → String × ℕ
  | acc, [] => acc
  | acc, p :: l => domFold (if acc.2 < p.2 then p else acc) l

/-- The dominant emotion: name component of the scan started at
`("neutral", 0)`. -/
def selectDominant (counts : List (String × ℕ)) : String :=
  (domFold ("neutral", 0) counts).1

/-- `computeEmotionDayStats(emotions, dayKey)`. -/
def computeEmotionDayStats (emotions : List (String × EmotionData))
    (dayKey : String) : EmotionDayStats :=
  { total := (emotionAcc emotions dayKey).total
    counts := (emotionAcc emotions dayKey).counts
    hourly := (emotionAcc emotions dayKey).hourly
    dominant := selectDominant (emotionAcc emotions dayKey).counts }

/-! ## Monotonicity under record deletion (C6) -/

/-- Removal of one key from a record mapping (`delete m[k]`). -/
def deleteKey {β : Type} (m : List (String × β)) (k : String) :
    List (String × β) :=
  m.filter fun kv => kv.1 ≠ k

/-- Pointwise order on day statistics: every counter of the left stats —
day totals and each hourly bucket's counts — is at most the corresponding
counter of the right stats (lengths of the hourly arrays agree). -/
def DayStatsLe (s₁ s₂ : DayStats) : Prop :=
  s₁.total ≤ s₂.total ∧ s₁.drowsy ≤ s₂.drowsy ∧ s₁.yawn ≤ s₂.yawn ∧
  s₁.hourly.length = s₂.hourly.length ∧
  ∀ i : ℕ,
    atIdx HourBucket.drowsy s₁.hourly i ≤ atIdx HourBucket.drowsy s₂.hourly i ∧
    atIdx HourBucket.yawn s₁.hourly i ≤ atIdx HourBucket.yawn s₂.hourly i ∧
    atIdx HourBucket.total s₁.hourly i ≤ atIdx HourBucket.total s₂.hourly i

lemma dayStatsLe_refl (s : DayStats) : DayStatsLe s s :=
  ⟨le_rfl, le_rfl, le_rfl, rfl, fun _ => ⟨le_rfl, le_rfl, le_rfl⟩⟩

lemma dayStatsLe_trans {s₁ s₂ s₃ : DayStats}
    (h₁ : DayStatsLe s₁ s₂) (h₂ : DayStatsLe s₂ s₃) : DayStatsLe s₁ s₃ := by
  obtain ⟨a₁, b₁, c₁, d₁, e₁⟩ := h₁
  obtain ⟨a₂, b₂, c₂, d₂, e₂⟩ := h₂
  refine ⟨a₁.trans a₂, b₁.trans b₂, c₁.trans c₂, d₁.trans d₂, fun i => ?_⟩
  obtain ⟨x₁, y₁, z₁⟩ := e₁ i
  obtain ⟨x₂, y₂, z₂⟩ := e₂ i
  exact ⟨x₁.trans x₂, y₁.trans y₂, z₁.trans z₂⟩

lemma atIdx_modifyIdx_ge {α : Type} (g : α → ℕ) (f : α → α) (c : ℕ)
    (hgf : ∀ a, g (f a) = g a + c) (l : List α) (n i : ℕ) :
    atIdx g l i ≤ atIdx g (modifyIdx f n l) i := by
  rw [atIdx_modifyIdx g f c hgf]
  split_ifs <;> omega

lemma atIdx_modifyIdx_mono {α : Type} (g : α → ℕ) (f : α → α) (c : ℕ)
    (hgf : ∀ a, g (f a) = g a + c) {l₁ l₂ : List α}
    (hlen : l₁.length = l₂.length) (n i : ℕ)
    (hle : atIdx g l₁ i ≤ atIdx g l₂ i) :
    atIdx g (modifyIdx f n l₁) i ≤ atIdx g (modifyIdx f n l₂) i := by
  rw [atIdx_modifyIdx g f c hgf, atIdx_modifyIdx g f c hgf, hlen]
  split_ifs <;> omega

lemma dayStatsStep_le_self (dayKey : String) (s : DayStats) (a : AlertData) :
    DayStatsLe s (dayStatsStep dayKey s a) := by
  unfold dayStatsStep
  cases a.timestamp with
  | none => exact dayStatsLe_refl s
  | some ts =>
    dsimp only
    by_cases hdk : ts.dateKey ≠ dayKey
    · rw [if_pos hdk]
      exact dayStatsLe_refl s
    · rw [if_neg hdk]
      by_cases ht : a.type = "drowsiness"
      · rw [if_pos ht]
        refine ⟨by dsimp; omega, by dsimp; omega, by dsimp; omega, ?_, fun i => ?_⟩
        · dsimp
          rw [length_modifyIdx, length_modifyIdx]
        · refine ⟨?_, ?_, ?_⟩ <;> dsimp
          · exact le_trans
              (atIdx_modifyIdx_ge HourBucket.drowsy
                (fun b => { b with total := b.total + 1 }) 0 (fun b => rfl) s.hourly ts.hour.val i)
              (atIdx_modifyIdx_ge HourBucket.drowsy
                (fun b => { b with drowsy := b.drowsy + 1 }) 1 (fun b => rfl) _ ts.hour.val i)
          · exact le_trans
              (atIdx_modifyIdx_ge HourBucket.yawn
                (fun b => { b with total := b.total + 1 }) 0 (fun b => rfl) s.hourly ts.hour.val i)
              (atIdx_modifyIdx_ge HourBucket.yawn
                (fun b => { b with drowsy := b.drowsy + 1 }) 0 (fun b => rfl) _ ts.hour.val i)
          · exact le_trans
              (atIdx_modifyIdx_ge HourBucket.total
                (fun b => { b with total := b.total + 1 }) 1 (fun b => rfl) s.hourly ts.hour.val i)
              (atIdx_modifyIdx_ge HourBucket.total
                (fun b => { b with drowsy := b.drowsy + 1 }) 0 (fun b => rfl) _ ts.hour.val i)
      · rw [if_neg ht]
        by_cases hy : a.type = "yawning"
        · rw [if_pos hy]
          refine ⟨by dsimp; omega, by dsimp; omega, by dsimp; omega, ?_, fun i => ?_⟩
          · dsimp
            rw [length_modifyIdx, length_modifyIdx]
          · refine ⟨?_, ?_, ?_⟩ <;> dsimp
            · exact le_trans
                (atIdx_modifyIdx_ge HourBucket.drowsy
                (fun b => { b with total := b.total + 1 }) 0 (fun b => rfl) s.hourly ts.hour.val i)
                (atIdx_modifyIdx_ge HourBucket.drowsy
                  (fun b => { b with yawn := b.yawn + 1 }) 0 (fun b => rfl) _ ts.hour.val i)
            · exact le_trans
                (atIdx_modifyIdx_ge HourBucket.yawn
                (fun b => { b with total := b.total + 1 }) 0 (fun b => rfl) s.hourly ts.hour.val i)
                (atIdx_modifyIdx_ge HourBucket.yawn
                  (fun b => { b with yawn := b.yawn + 1 }) 1 (fun b => rfl) _ ts.hour.val i)
            · exact le_trans
                (atIdx_modifyIdx_ge HourBucket.total
                  (fun b => { b with total := b.total + 1 }) 1 (fun b => rfl) s.hourly ts.hour.val i)
                (atIdx_modifyIdx_ge HourBucket.total
                  (fun b => { b with yawn := b.yawn + 1 }) 0 (fun b => rfl) _ ts.hour.val i)
        · rw [if_neg hy]
          refine ⟨by dsimp; omega, by dsimp; omega, by dsimp; omega, ?_, fun i => ?_⟩
          · dsimp
            rw [length_modifyIdx]
          · refine ⟨?_, ?_, ?_⟩ <;> dsimp
            · exact atIdx_modifyIdx_ge HourBucket.drowsy
                (fun b => { b with total := b.total + 1 }) 0 (fun b => rfl) s.hourly ts.hour.val i
            · exact atIdx_modifyIdx_ge HourBucket.yawn
                (fun b => { b with total := b.total + 1 }) 0 (fun b => rfl) s.hourly ts.hour.val i
            · exact atIdx_modifyIdx_ge HourBucket.total
                (fun b => { b with total := b.total + 1 }) 1 (fun b => rfl) s.hourly ts.hour.val i

lemma dayStatsStep_mono (dayKey : String) (a : AlertData) {s t : DayStats}
    (h : DayStatsLe s t) :
    DayStatsLe (dayStatsStep dayKey s a) (dayStatsStep dayKey t a) := by
  obtain ⟨h1, h2, h3, hlen, hpt⟩ := h
  unfold dayStatsStep
  cases a.timestamp with
  | none => exact ⟨h1, h2, h3, hlen, hpt⟩
  | some ts =>
    dsimp only
    by_cases hdk : ts.dateKey ≠ dayKey
    · simp only [if_pos hdk]
      exact ⟨h1, h2, h3, hlen, hpt⟩
    · simp only [if_neg hdk]
      have hlen1 : (modifyIdx (fun b => { b with total := b.total + 1 })
            ts.hour.val s.hourly).length =
          (modifyIdx (fun b => { b with total := b.total + 1 })
            ts.hour.val t.hourly).length := by
        rw [length_modifyIdx, length_modifyIdx]
        exact hlen
      by_cases ht : a.type = "drowsiness"
      · simp only [if_pos ht]
        refine ⟨by dsimp; omega, by dsimp; omega, by dsimp; omega, ?_, fun i => ?_⟩
        · dsimp
          simp only [length_modifyIdx]
          exact hlen
        · obtain ⟨hd, hyw, htt⟩ := hpt i
          refine ⟨?_, ?_, ?_⟩ <;> dsimp
          · exact atIdx_modifyIdx_mono HourBucket.drowsy
              (fun b => { b with drowsy := b.drowsy + 1 }) 1 (fun b => rfl)
              hlen1 ts.hour.val i
              (atIdx_modifyIdx_mono HourBucket.drowsy
                (fun b => { b with total := b.total + 1 }) 0 (fun b => rfl)
                hlen ts.hour.val i hd)
          · exact atIdx_modifyIdx_mono HourBucket.yawn
              (fun b => { b with drowsy := b.drowsy + 1 }) 0 (fun b => rfl)
              hlen1 ts.hour.val i
              (atIdx_modifyIdx_mono HourBucket.yawn
                (fun b => { b with total := b.total + 1 }) 0 (fun b => rfl)
                hlen ts.hour.val i hyw)
          · exact atIdx_modifyIdx_mono HourBucket.total
              (fun b => { b with drowsy := b.drowsy + 1 }) 0 (fun b => rfl)
              hlen1 ts.hour.val i
              (atIdx_modifyIdx_mono HourBucket.total
                (fun b => { b with total := b.total + 1 }) 1 (fun b => rfl)
                hlen ts.hour.val i htt)
      · simp only [if_neg ht]
        by_cases hy : a.type = "yawning"
        · simp only [if_pos hy]
          refine ⟨by dsimp; omega, by dsimp; omega, by dsimp; omega, ?_, fun i => ?_⟩
          · dsimp
            simp only [length_modifyIdx]
            exact hlen
          · obtain ⟨hd, hyw, htt⟩ := hpt i
            refine ⟨?_, ?_, ?_⟩ <;> dsimp
            · exact atIdx_modifyIdx_mono HourBucket.drowsy
                (fun b => { b with yawn := b.yawn + 1 }) 0 (fun b => rfl)
                hlen1 ts.hour.val i
                (atIdx_modifyIdx_mono HourBucket.drowsy
                  (fun b => { b with total := b.total + 1 }) 0 (fun b => rfl)
                  hlen ts.hour.val i hd)
            · exact atIdx_modifyIdx_mono HourBucket.yawn
                (fun b => { b with yawn := b.yawn + 1 }) 1 (fun b => rfl)
                hlen1 ts.hour.val i
                (atIdx_modifyIdx_mono HourBucket.yawn
                  (fun b => { b with total := b.total + 1 }) 0 (fun b => rfl)
                  hlen ts.hour.val i hyw)
            · exact atIdx_modifyIdx_mono HourBucket.total
                (fun b => { b with yawn := b.yawn + 1 }) 0 (fun b => rfl)
                hlen1 ts.hour.val i
                (atIdx_modifyIdx_mono HourBucket.total
                  (fun b => { b with total := b.total + 1 }) 1 (fun b => rfl)
                  hlen ts.hour.val i htt)
        · simp only [if_neg hy]
          refine ⟨by dsimp; omega, by dsimp; omega, by dsimp; omega, ?_, fun i => ?_⟩
          · dsimp
            exact hlen1
          · obtain ⟨hd, hyw, htt⟩ := hpt i
            refine ⟨?_, ?_, ?_⟩ <;> dsimp
            · exact atIdx_modifyIdx_mono HourBucket.drowsy
                (fun b => { b with total := b.total + 1 }) 0 (fun b => rfl)
                hlen ts.hour.val i hd
            · exact atIdx_modifyIdx_mono HourBucket.yawn
                (fun b => { b with total := b.total + 1 }) 0 (fun b => rfl)
                hlen ts.hour.val i hyw
            · exact atIdx_modifyIdx_mono HourBucket.total
                (fun b => { b with total := b.total + 1 }) 1 (fun b => rfl)
                hlen ts.hour.val i htt

lemma computeDayStats_sublist_mono (dayKey : String) :
    ∀ {l₁ l₂ : List (String × AlertData)}, l₁.Sublist l₂ →
      ∀ {s t : DayStats}, DayStatsLe s t →
        DayStatsLe (l₁.foldl (fun b kv => dayStatsStep dayKey b kv.2) s)
          (l₂.foldl (fun b kv => dayStatsStep dayKey b kv.2) t) := by
  intro l₁ l₂ hsub
  induction hsub with
  | slnil => exact fun h => h
  | cons a hsub ih =>
      intro s t h
      rw [List.foldl_cons]
      exact ih (dayStatsLe_trans h (dayStatsStep_le_self dayKey t a.2))
  | cons₂ a hsub ih =>
      intro s t h
      rw [List.foldl_cons, List.foldl_cons]
      exact ih (dayStatsStep_mono dayKey a.2 h)

/-- Pointwise order on emotion-day accumulators: total, every per-emotion
count, and every hourly bucket's counters on the left are at most those on
the right. -/
def EmotionAccLe (s₁ s₂ : EmotionAcc) : Prop :=
  s₁.total ≤ s₂.total ∧
  (∀ q, lookupCount s₁.counts q ≤ lookupCount s₂.counts q) ∧
  s₁.hourly.length = s₂.hourly.length ∧
  ∀ i : ℕ,
    atIdx EmotionHourBucket.total s₁.hourly i ≤
      atIdx EmotionHourBucket.total s₂.hourly i ∧
    ∀ q, atIdx (fun b => lookupCount b.counts q) s₁.hourly i ≤
      atIdx (fun b => lookupCount b.counts q) s₂.hourly i

lemma emotionAccLe_refl (s : EmotionAcc) : EmotionAccLe s s :=
  ⟨le_rfl, fun _ => le_rfl, rfl, fun _ => ⟨le_rfl, fun _ => le_rfl⟩⟩

lemma emotionAccLe_trans {s₁ s₂ s₃ : EmotionAcc}
    (h₁ : EmotionAccLe s₁ s₂) (h₂ : EmotionAccLe s₂ s₃) : EmotionAccLe s₁ s₃ := by
  obtain ⟨a₁, b₁, c₁, d₁⟩ := h₁
  obtain ⟨a₂, b₂, c₂, d₂⟩ := h₂
  refine ⟨a₁.trans a₂, fun q => (b₁ q).trans (b₂ q), c₁.trans c₂, fun i => ?_⟩
  exact ⟨(d₁ i).1.trans (d₂ i).1, fun q => ((d₁ i).2 q).trans ((d₂ i).2 q)⟩

lemma lookupCount_le_bump (l : List (String × ℕ)) (k q : String) :
    lookupCount l q ≤ lookupCount (bump l k) q := by
  rw [lookupCount_bump l k q]
  split_ifs <;> omega

lemma emotionDayStep_le_self (dayKey : String) (s : EmotionAcc)
    (e : EmotionData) : EmotionAccLe s (emotionDayStep dayKey s e) := by
  unfold emotionDayStep
  cases e.timestamp with
  | none => exact emotionAccLe_refl s
  | some ts =>
    dsimp only
    by_cases he : e.emotion = ""
    · rw [if_pos he]
      exact emotionAccLe_refl s
    · rw [if_neg he]
      by_cases hdk : ts.dateKey ≠ dayKey
      · rw [if_pos hdk]
        exact emotionAccLe_refl s
      · rw [if_neg hdk]
        refine ⟨by dsimp; omega, fun q => ?_, ?_, fun i => ⟨?_, fun q => ?_⟩⟩ <;> dsimp
        · exact lookupCount_le_bump s.counts (strToLower e.emotion) q
        · rw [length_modifyIdx]
        · exact atIdx_modifyIdx_ge EmotionHourBucket.total
            (fun b => { b with
              total := b.total + 1
              counts := bump b.counts (strToLower e.emotion) }) 1
            (fun b => rfl) s.hourly ts.hour.val i
        · exact atIdx_modifyIdx_ge (fun b => lookupCount b.counts q)
            (fun b => { b with
              total := b.total + 1
              counts := bump b.counts (strToLower e.emotion) })
            (if q = (strToLower e.emotion) then 1 else 0)
            (fun b => lookupCount_bump b.counts (strToLower e.emotion) q)
            s.hourly ts.hour.val i

lemma emotionDayStep_mono (dayKey : String) (e : EmotionData)
    {s t : EmotionAcc} (h : EmotionAccLe s t) :
    EmotionAccLe (emotionDayStep dayKey s e) (emotionDayStep dayKey t e) := by
  obtain ⟨h1, h2, hlen, hpt⟩ := h
  unfold emotionDayStep
  cases e.timestamp with
  | none => exact ⟨h1, h2, hlen, hpt⟩
  | some ts =>
    dsimp only
    by_cases he : e.emotion = ""
    · simp only [if_pos he]
      exact ⟨h1, h2, hlen, hpt⟩
    · simp only [if_neg he]
      by_cases hdk : ts.dateKey ≠ dayKey
      · simp only [if_pos hdk]
        exact ⟨h1, h2, hlen, hpt⟩
      · simp only [if_neg hdk]
        refine ⟨by dsimp; omega, fun q => ?_, ?_, fun i => ⟨?_, fun q => ?_⟩⟩ <;> dsimp
        · rw [lookupCount_bump s.counts (strToLower e.emotion) q,
            lookupCount_bump t.counts (strToLower e.emotion) q]
          have := h2 q
          omega
        · simp only [length_modifyIdx]
          exact hlen
        · exact atIdx_modifyIdx_mono EmotionHourBucket.total
            (fun b => { b with
              total := b.total + 1
              counts := bump b.counts (strToLower e.emotion) }) 1
            (fun b => rfl) hlen ts.hour.val i (hpt i).1
        · exact atIdx_modifyIdx_mono (fun b => lookupCount b.counts q)
            (fun b => { b with
              total := b.total + 1
              counts := bump b.counts (strToLower e.emotion) })
            (if q = (strToLower e.emotion) then 1 else 0)
            (fun b => lookupCount_bump b.counts (strToLower e.emotion) q)
            hlen ts.hour.val i ((hpt i).2 q)

lemma emotionAcc_sublist_mono (dayKey : String) :
    ∀ {l₁ l₂ : List (String × EmotionData)}, l₁.Sublist l₂ →
      ∀ {s t : EmotionAcc}, EmotionAccLe s t →
        EmotionAccLe (l₁.foldl (fun b kv => emotionDayStep dayKey b kv.2) s)
          (l₂.foldl (fun b kv => emotionDayStep dayKey b kv.2) t) := by
  intro l₁ l₂ hsub
  induction hsub with
  | slnil => exact fun h => h
  | cons a hsub ih =>
      intro s t h
      rw [List.foldl_cons]
      exact ih (emotionAccLe_trans h (emotionDayStep_le_self dayKey t a.2))
  | cons₂ a hsub ih =>
      intro s t h
      rw [List.foldl_cons, List.foldl_cons]
      exact ih (emotionDayStep_mono dayKey a.2 h)

/-- Pointwise order on emotion day statistics (`dominant` not compared). -/
def EmotionStatsLe (e₁ e₂ : EmotionDayStats) : Prop :=
  e₁.total ≤ e₂.total ∧
  (∀ q, lookupCount e₁.counts q ≤ lookupCount e₂.counts q) ∧
  e₁.hourly.length = e₂.hourly.length ∧
  ∀ i : ℕ,
    atIdx EmotionHourBucket.total e₁.hourly i ≤
      atIdx EmotionHourBucket.total e₂.hourly i ∧
    ∀ q, atIdx (fun b => lookupCount b.counts q) e₁.hourly i ≤
      atIdx (fun b => lookupCount b.counts q) e₂.hourly i

/-- C6 confirmed: removing a record (all entries of a key) from the alert
mapping makes every counter of `computeDayStats` — total, drowsy, yawn and
each hourly bucket's counts — at most its prior value; likewise for
`computeEmotionDayStats` under removal of an emotion record. -/
theorem stats_monotone_under_deletion
    (alerts : List (String × AlertData)) (emotions : List (String × EmotionData))
    (ka ke dayKey : String)
    (hka : ka ∈ alerts.map Prod.fst) (hke : ke ∈ emotions.map Prod.fst) :
    DayStatsLe (computeDayStats (deleteKey alerts ka) dayKey)
      (computeDayStats alerts dayKey) ∧
    EmotionStatsLe (computeEmotionDayStats (deleteKey emotions ke) dayKey)
      (computeEmotionDayStats emotions dayKey) := by
  constructor
  · exact computeDayStats_sublist_mono dayKey (List.filter_sublist _)
      (dayStatsLe_refl _)
  · exact emotionAcc_sublist_mono dayKey (List.filter_sublist _)
      (emotionAccLe_refl _)

/-- A one-record alert mapping used as a concrete instance. -/
def sampleAlerts : List (String × AlertData) :=
  [("a1", { type := "drowsiness",
            timestamp := some { dateKey := "2024-05-01", hour := 10, ms := 0 } })]

/-- A one-record emotion mapping used as a concrete instance. -/
def sampleEmotions : List (String × EmotionData) :=
  [("e1", { emotion := "happy",
            timestamp := some { dateKey := "2024-05-01", hour := 10, ms := 0 } })]

/-- C6 witness: deleting the only record of the concrete one-record mappings
leaves every counter at most its prior value. -/
theorem stats_monotone_under_deletion_witness :
    "a1" ∈ sampleAlerts.map Prod.fst ∧
    "e1" ∈ sampleEmotions.map Prod.fst ∧
    DayStatsLe (computeDayStats (deleteKey sampleAlerts "a1") "2024-05-01")
      (computeDayStats sampleAlerts "2024-05-01") ∧
    EmotionStatsLe
      (computeEmotionDayStats (deleteKey sampleEmotions "e1") "2024-05-01")
      (computeEmotionDayStats sampleEmotions "2024-05-01") := by
  have h1 : "a1" ∈ sampleAlerts.map Prod.fst := by simp [sampleAlerts]
  have h2 : "e1" ∈ sampleEmotions.map Prod.fst := by simp [sampleEmotions]
  obtain ⟨hA, hE⟩ := stats_monotone_under_deletion sampleAlerts sampleEmotions
    "a1" "e1" "2024-05-01" h1 h2
  exact ⟨h1, h2, hA, hE⟩

/-! ## Dominant emotion (C8) -/

/-- The maximum count reached while scanning the entries of the count object
(0 for an empty object, matching the scan's initial `maxCount`). -/
def maxCount (l : List (String × ℕ)) : ℕ :=
  l.foldl (fun m p => max m p.2) 0

lemma foldl_max_le_init :
    ∀ (l : List (String × ℕ)) (m : ℕ), m ≤ l.foldl (fun a p => max a p.2) m
  | [], _ => le_rfl
  | p :: t, m =>
      le_trans (le_max_left m p.2) (foldl_max_le_init t (max m p.2))

lemma elem_le_foldl_max :
    ∀ (l : List (String × ℕ)) (r : String × ℕ), r ∈ l →
      ∀ m : ℕ, r.2 ≤ l.foldl (fun a p => max a p.2) m
  | [], r, hr, _ => absurd hr (List.not_mem_nil r)
  | p :: t, r, hr, m => by
      rcases List.mem_cons.mp hr with h | h
      · subst h
        exact le_trans (le_max_right m r.2) (foldl_max_le_init t (max m r.2))
      · exact elem_le_foldl_max t r h (max m p.2)

lemma foldl_max_eq_or_mem :
    ∀ (l : List (String × ℕ)) (m : ℕ),
      l.foldl (fun a p => max a p.2) m = m ∨
      ∃ p ∈ l, p.2 = l.foldl (fun a p => max a p.2) m
  | [], _ => Or.inl rfl
  | p :: t, m => by
      rw [List.foldl_cons]
      rcases foldl_max_eq_or_mem t (max m p.2) with h | ⟨q, hq, hq2⟩
      · rcases le_or_lt p.2 m with hpm | hpm
        · left
          rw [h]
          omega
        · right
          exact ⟨p, List.mem_cons_self p t, by rw [h]; omega⟩
      · exact Or.inr ⟨q, List.mem_cons_of_mem p hq, hq2⟩

lemma domFold_of_all_le :
    ∀ (l : List (String × ℕ)) (acc : String × ℕ),
      (∀ p ∈ l, p.2 ≤ acc.2) → domFold acc l = acc
  | [], _, _ => rfl
  | p :: t, acc, h => by
      simp only [domFold]
      rw [if_neg (not_lt.mpr (h p (List.mem_cons_self p t)))]
      exact domFold_of_all_le t acc fun r hr => h r (List.mem_cons_of_mem p hr)

/-- The scan returns the first entry whose count equals the overall maximum,
provided the maximum beats the initial accumulator. -/
lemma domFold_finds_first_max :
    ∀ (l : List (String × ℕ)) (acc : String × ℕ) (M : ℕ) (q : String × ℕ),
      M = l.foldl (fun a p => max a p.2) acc.2 → acc.2 < M →
      l.find? (fun p => p.2 == M) = some q → domFold acc l = q
  | [], acc, M, q, hM, hlt, _ => by
      rw [List.foldl_nil] at hM
      omega
  | p :: t, acc, M, q, hM, hlt, hfind => by
      rw [List.foldl_cons] at hM
      by_cases hp : p.2 = M
      · rw [List.find?_cons_of_pos _ (by simp [hp])] at hfind
        injection hfind with hq
        simp only [domFold]
        rw [if_pos (show acc.2 < p.2 by omega), ← hq]
        exact domFold_of_all_le t p fun r hr => by
          have := elem_le_foldl_max t r hr (max acc.2 p.2)
          omega
      · have hple : p.2 ≤ M := by
          have h2 := foldl_max_le_init t (max acc.2 p.2)
          have h3 : p.2 ≤ max acc.2 p.2 := le_max_right acc.2 p.2
          omega
        rw [List.find?_cons_of_neg _ (by simp [hp])] at hfind
        simp only [domFold]
        have hacc2 : (if acc.2 < p.2 then p else acc).2 = max acc.2 p.2 := by
          split_ifs <;> omega
        refine domFold_finds_first_max t (if acc.2 < p.2 then p else acc) M q ?_ ?_ hfind
        · rw [hacc2]
          exact hM
        · rw [hacc2]
          omega

lemma exists_max_mem (l : List (String × ℕ)) (h : 0 < maxCount l) :
    ∃ p ∈ l, p.2 = maxCount l := by
  rcases foldl_max_eq_or_mem l 0 with h0 | hex
  · unfold maxCount at h
    omega
  · exact hex

lemma selectDominant_find (l : List (String × ℕ)) (h : 0 < maxCount l) :
    l.find? (fun p => p.2 == maxCount l) = some (selectDominant l, maxCount l) := by
  obtain ⟨p, hp, hpm⟩ := exists_max_mem l h
  cases hfind : l.find? (fun r => r.2 == maxCount l) with
  | none =>
      rw [List.find?_eq_none] at hfind
      exact absurd (by simp [hpm]) (hfind p hp)
  | some q =>
      have hq2 : q.2 = maxCount l := by simpa using List.find?_some hfind
      have hdom : domFold ("neutral", 0) l = q :=
        domFold_finds_first_max l ("neutral", 0) (maxCount l) q rfl h hfind
      rw [selectDominant, hdom, ← hq2]

/-- C8 confirmed: for every emotion mapping and day key, the `dominant` field
of `computeEmotionDayStats` is the key of the FIRST entry (in key-insertion
order) of the day's count object whose count equals the maximum count, as
long as the day has any record (maximum positive). -/
theorem dominant_is_first_max
    (emotions : List (String × EmotionData)) (dayKey : String)
    (hmax : 0 < maxCount (computeEmotionDayStats emotions dayKey).counts) :
    (computeEmotionDayStats emotions dayKey).counts.find?
        (fun p => p.2 == maxCount (computeEmotionDayStats emotions dayKey).counts) =
      some ((computeEmotionDayStats emotions dayKey).dominant,
        maxCount (computeEmotionDayStats emotions dayKey).counts) :=
  selectDominant_find (computeEmotionDayStats emotions dayKey).counts hmax

/-- Scenario D: two "happy" and two "sad" records on one day, "happy"
inserted first. -/
def scenarioDEmotions : List (String × EmotionData) :=
  [("e1", { emotion := "happy",
            timestamp := some { dateKey := "2024-05-01", hour := 9, ms := 0 } }),
   ("e2", { emotion := "sad",
            timestamp := some { dateKey := "2024-05-01", hour := 10, ms := 0 } }),
   ("e3", { emotion := "happy",
            timestamp := some { dateKey := "2024-05-01", hour := 11, ms := 0 } }),
   ("e4", { emotion := "sad",
            timestamp := some { dateKey := "2024-05-01", hour := 12, ms := 0 } })]

/-- C8 witness: in Scenario D the counts tie at 2 and the dominant emotion
resolves to "happy", the first-inserted tied category. -/
theorem dominant_is_first_max_witness :
    0 < maxCount (computeEmotionDayStats scenarioDEmotions "2024-05-01").counts ∧
    (computeEmotionDayStats scenarioDEmotions "2024-05-01").counts.find?
        (fun p => p.2 ==
          maxCount (computeEmotionDayStats scenarioDEmotions "2024-05-01").counts) =
      some ((computeEmotionDayStats scenarioDEmotions "2024-05-01").dominant,
        maxCount (computeEmotionDayStats scenarioDEmotions "2024-05-01").counts) ∧
    (computeEmotionDayStats scenarioDEmotions "2024-05-01").dominant = "happy" ∧
    lookupCount (computeEmotionDayStats scenarioDEmotions "2024-05-01").counts
      "happy" = 2 ∧
    lookupCount (computeEmotionDayStats scenarioDEmotions "2024-05-01").counts
      "sad" = 2 := by
  have h : 0 < maxCount (computeEmotionDayStats scenarioDEmotions "2024-05-01").counts := by
    decide
  exact ⟨h, dominant_is_first_max scenarioDEmotions "2024-05-01" h,
    by decide, by decide, by decide⟩

/-! ## Day navigator (`getAvailableDays` and the day picker, C7) -/

/-- The local date keys contributed to `daySet` by both mappings, in
iteration order (records with a falsy timestamp contribute nothing). -/
def collectedDays (alerts : List (String × AlertData))
    (emotions : List (String × EmotionData)) : List String :=
  (alerts.filterMap fun kv => kv.2.timestamp.map Timestamp.dateKey) ++
    (emotions.filterMap fun kv => kv.2.timestamp.map Timestamp.dateKey)

/-- `Array.from(daySet).sort().reverse()`: the distinct collected date keys
in descending lexicographic order.  (`Set` deduplicates; since the list is
sorted right after, only the underlying set of keys matters, and any
duplicate-removal gives the same sorted result.) -/
def sortedDays (alerts : List (String × AlertData))
    (emotions : List (String × EmotionData)) : List String :=
  (((collectedDays alerts emotions).dedup).insertionSort (· ≤ ·)).reverse

/-- `getAvailableDays`: the sorted distinct days, with today's key prepended
(`unshift`) when not already present. -/
def getAvailableDays (alerts : List (String × AlertData))
    (emotions : List (String × EmotionData)) (todayKey : String) : List String :=
  if todayKey ∈ sortedDays alerts emotions then sortedDays alerts emotions
  else todayKey :: sortedDays alerts emotions

/-- `canGoPrev = selectedDayIdx < availableDays.length - 1`. -/
def canGoPrev (len idx : ℕ) : Bool :=
  decide (idx < len - 1)

/-- `canGoNext = selectedDayIdx > 0`. -/
def canGoNext (idx : ℕ) : Bool :=
  decide (0 < idx)

/-- The previous-day arrow: `canGoPrev && setSelectedDayIdx(idx + 1)`. -/
def goPrev (len idx : ℕ) : ℕ :=
  if canGoPrev len idx then idx + 1 else idx

/-- The next-day arrow: `canGoNext && setSelectedDayIdx(idx - 1)`. -/
def goNext (idx : ℕ) : ℕ :=
  if canGoNext idx then idx - 1 else idx

lemma mem_sortedDays (alerts : List (String × AlertData))
    (emotions : List (String × EmotionData)) (d : String) :
    d ∈ sortedDays alerts emotions ↔ d ∈ collectedDays alerts emotions := by
  unfold sortedDays
  rw [List.mem_reverse, (List.perm_insertionSort _ _).mem_iff, List.mem_dedup]

lemma sortedDays_sorted (alerts : List (String × AlertData))
    (emotions : List (String × EmotionData)) :
    List.Sorted (fun a b : String => b ≤ a) (sortedDays alerts emotions) := by
  unfold sortedDays
  rw [List.Sorted, List.pairwise_reverse]
  exact List.sorted_insertionSort _ _

lemma sortedDays_nodup (alerts : List (String × AlertData))
    (emotions : List (String × EmotionData)) :
    (sortedDays alerts emotions).Nodup := by
  unfold sortedDays
  rw [List.nodup_reverse]
  exact (List.perm_insertionSort _ _).nodup_iff.mpr (List.nodup_dedup _)

lemma nav_clamped (len idx : ℕ) (h : idx < len) :
    goPrev len idx < len ∧ goNext idx < len ∧
    (idx = len - 1 → goPrev len idx = idx) ∧ (idx = 0 → goNext idx = idx) := by
  simp only [goPrev, goNext, canGoPrev, canGoNext, decide_eq_true_eq]
  refine ⟨?_, ?_, fun he => ?_, fun he => ?_⟩ <;> split_ifs <;> omega

/-- C7 (amended): `getAvailableDays` returns exactly the distinct local
dates present across both mappings plus today's key, with no duplicates and
never empty; the sorted portion is ordered newest (lexicographically
largest) first, and the whole result is ordered newest first whenever no
record is dated after today — today's key is `unshift`ed to the FRONT when
absent, so a future-dated record breaks global newest-first order (see the
counterexample).  Navigation past either end of the list is a no-op and the
selected index stays in `[0, length − 1]`. -/
theorem availableDays_contract (alerts : List (String × AlertData))
    (emotions : List (String × EmotionData)) (todayKey : String) :
    (∀ d, d ∈ getAvailableDays alerts emotions todayKey ↔
      (d ∈ collectedDays alerts emotions ∨ d = todayKey)) ∧
    todayKey ∈ getAvailableDays alerts emotions todayKey ∧
    getAvailableDays alerts emotions todayKey ≠ [] ∧
    (getAvailableDays alerts emotions todayKey).Nodup ∧
    List.Sorted (fun a b : String => b ≤ a) (sortedDays alerts emotions) ∧
    ((∀ d ∈ collectedDays alerts emotions, d ≤ todayKey) →
      List.Sorted (fun a b : String => b ≤ a)
        (getAvailableDays alerts emotions todayKey)) ∧
    (∀ idx : ℕ, idx < (getAvailableDays alerts emotions todayKey).length →
      goPrev (getAvailableDays alerts emotions todayKey).length idx <
        (getAvailableDays alerts emotions todayKey).length ∧
      goNext idx < (getAvailableDays alerts emotions todayKey).length ∧
      (idx = (getAvailableDays alerts emotions todayKey).length - 1 →
        goPrev (getAvailableDays alerts emotions todayKey).length idx = idx) ∧
      (idx = 0 → goNext idx = idx)) := by
  refine ⟨?_, ?_, ?_, ?_, sortedDays_sorted alerts emotions, ?_,
    fun idx hidx => nav_clamped _ idx hidx⟩
  · intro d
    by_cases hmem : todayKey ∈ sortedDays alerts emotions
    · rw [getAvailableDays, if_pos hmem, mem_sortedDays]
      constructor
      · exact Or.inl
      · rintro (h | rfl)
        · exact h
        · exact (mem_sortedDays alerts emotions d).mp hmem
    · rw [getAvailableDays, if_neg hmem, List.mem_cons, mem_sortedDays]
      exact or_comm
  · by_cases hmem : todayKey ∈ sortedDays alerts emotions
    · rw [getAvailableDays, if_pos hmem]
      exact hmem
    · rw [getAvailableDays, if_neg hmem]
      exact List.mem_cons_self _ _
  · by_cases hmem : todayKey ∈ sortedDays alerts emotions
    · rw [getAvailableDays, if_pos hmem]
      exact List.ne_nil_of_mem hmem
    · rw [getAvailableDays, if_neg hmem]
      exact List.cons_ne_nil _ _
  · by_cases hmem : todayKey ∈ sortedDays alerts emotions
    · rw [getAvailableDays, if_pos hmem]
      exact sortedDays_nodup alerts emotions
    · rw [getAvailableDays, if_neg hmem]
      exact List.nodup_cons.mpr ⟨hmem, sortedDays_nodup alerts emotions⟩
  · intro hall
    by_cases hmem : todayKey ∈ sortedDays alerts emotions
    · rw [getAvailableDays, if_pos hmem]
      exact sortedDays_sorted alerts emotions
    · rw [getAvailableDays, if_neg hmem, List.sorted_cons]
      exact ⟨fun b hb => hall b ((mem_sortedDays alerts emotions b).mp hb),
        sortedDays_sorted alerts emotions⟩

/-- An alert mapping holding a single record dated after "today". -/
def futureAlerts : List (String × AlertData) :=
  [("a1", { type := "drowsiness",
            timestamp := some { dateKey := "2099-01-01", hour := 0, ms := 0 } })]

/-- C7 counterexample to "ordered newest first" as stated: with one record
dated 2099-01-01 and today 2024-01-01, the result is
`["2024-01-01", "2099-01-01"]` — today is unshifted to the front even though
a newer day follows it, so the list is not ordered newest first. -/
theorem availableDays_not_newest_first_counterexample :
    getAvailableDays futureAlerts [] "2024-01-01" =
      ["2024-01-01", "2099-01-01"] ∧
    ¬ List.Sorted (fun a b : String => b ≤ a)
      (getAvailableDays futureAlerts [] "2024-01-01") := by
  have heq : getAvailableDays futureAlerts [] "2024-01-01" =
      ["2024-01-01", "2099-01-01"] := by decide
  refine ⟨heq, ?_⟩
  rw [heq]
  intro hsort
  have h := (List.sorted_cons.mp hsort).1 "2099-01-01" (by simp)
  have hlt : "2024-01-01" < "2099-01-01" := by
    rw [String.lt_iff_toList_lt]
    decide
  exact absurd h (not_le.mpr hlt)

/-- C7 witness: on the concrete one-record mappings with today
"2024-05-02" (a day later than every record), today's key is in the result,
the whole list is newest-first, and pressing next at index 0 is a no-op. -/
theorem availableDays_contract_witness :
    "2024-05-02" ∈ getAvailableDays sampleAlerts sampleEmotions "2024-05-02" ∧
    List.Sorted (fun a b : String => b ≤ a)
      (getAvailableDays sampleAlerts sampleEmotions "2024-05-02") ∧
    goNext 0 = 0 := by
  obtain ⟨hm, htoday, hne, hnodup, hsorted, hcond, hnav⟩ :=
    availableDays_contract sampleAlerts sampleEmotions "2024-05-02"
  refine ⟨htoday, hcond ?_, (hnav 0 (List.length_pos.mpr hne)).2.2.2 rfl⟩
  intro d hd
  have : d = "2024-05-01" := by
    simpa [collectedDays, sampleAlerts, sampleEmotions] using hd
  rw [this]
  rw [String.le_iff_toList_le]
  decide

/-! ## Episode stream mirror (hooks/use-firebase.ts, C9) -/

/-- `new Date(t).getTime()` of a record's timestamp.  (A missing timestamp
would be an invalid date, `NaN`, in JS, where the sort comparator's behaviour
is unspecified; the model orders it as 0 — no claim exercises that corner.) -/
def tsMillis : Option Timestamp → ℤ
  | some t => t.ms
  | none => 0

/-- `getLatestAlert`: null for an empty mapping, otherwise the first entry
after sorting by timestamp descending (`(a, b) => getTime(b) - getTime(a)`,
a stable sort). -/
def getLatestAlert (alerts : List (String × AlertData)) :
    Option (String × AlertData) :=
  if alerts.isEmpty then none
  else (alerts.insertionSort
    fun a b => tsMillis b.2.timestamp ≤ tsMillis a.2.timestamp).head?

/-- `getLatestEmotion`: same shape as `getLatestAlert`. -/
def getLatestEmotion (emotions : List (String × EmotionData)) :
    Option (String × EmotionData) :=
  if emotions.isEmpty then none
  else (emotions.insertionSort
    fun a b => tsMillis b.2.timestamp ≤ tsMillis a.2.timestamp).head?

/-- The state cells of `useFirebaseAlerts`. -/
structure AlertsHookState where
  alerts : List (String × AlertData)
  latestAlert : Option (String × AlertData)
  loading : Bool
  error : Option String
deriving DecidableEq

/-- `useState` initial values of `useFirebaseAlerts`. -/
def initAlertsHook : AlertsHookState :=
  { alerts := [], latestAlert := none, loading := true, error := none }

/-- The data callback of `useFirebaseAlerts`: `setAlerts(data)`,
`setLatestAlert(getLatestAlert(data))`, `setLoading(false)`. -/
def onAlertsData (d : List (String × AlertData)) (s : AlertsHookState) :
    AlertsHookState :=
  { s with alerts := d, latestAlert := getLatestAlert d, loading := false }

/-- The error callback of `useFirebaseAlerts`: `setError(err.message)`,
`setLoading(false)` — nothing else. -/
def onAlertsError (msg : String) (s : AlertsHookState) : AlertsHookState :=
  { s with error := some msg, loading := false }

/-- The state cells of `useFirebaseEmotions`. -/
structure EmotionsHookState where
  emotions : List (String × EmotionData)
  latestEmotion : Option (String × EmotionData)
  loading : Bool
  error : Option String
deriving DecidableEq

/-- `useState` initial values of `useFirebaseEmotions`. -/
def initEmotionsHook : EmotionsHookState :=
  { emotions := [], latestEmotion := none, loading := true, error := none }

/-- The data callback of `useFirebaseEmotions`. -/
def onEmotionsData (d : List (String × EmotionData)) (s : EmotionsHookState) :
    EmotionsHookState :=
  { s with emotions := d, latestEmotion := getLatestEmotion d, loading := false }

/-- The error callback of `useFirebaseEmotions`: `setError(err.message)`,
`setLoading(false)` — nothing else. -/
def onEmotionsError (msg : String) (s : EmotionsHookState) : EmotionsHookState :=
  { s with error := some msg, loading := false }

/-- C9 confirmed: a push-channel error leaves the mirrored mapping and the
derived latest record of both hooks exactly as they were — the error
callback only records the message and clears the loading flag, so
last-known-good data stays available alongside the error. -/
theorem subscription_error_preserves_mirror
    (s : AlertsHookState) (t : EmotionsHookState) (msgA msgE : String) :
    (onAlertsError msgA s).alerts = s.alerts ∧
    (onAlertsError msgA s).latestAlert = s.latestAlert ∧
    (onAlertsError msgA s).error = some msgA ∧
    (onAlertsError msgA s).loading = false ∧
    (onEmotionsError msgE t).emotions = t.emotions ∧
    (onEmotionsError msgE t).latestEmotion = t.latestEmotion ∧
    (onEmotionsError msgE t).error = some msgE ∧
    (onEmotionsError msgE t).loading = false :=
  ⟨rfl, rfl, rfl, rfl, rfl, rfl, rfl, rfl⟩

end Drowsy
